import Mathlib

/-!
Shallow embedding of the realtime collaborative editor server
(`src/server/index.js` and `src/server/models/Room.js`).

The server keeps four module-level mutable maps (`userSocketMap`,
`dbDebounce`, `saveLanguageDebounce`, `roomState`), the socket.io room
membership, and a MongoDB collection of room records.  We model all of
them as association lists keyed by strings inside one explicit
`ServerState`, and each socket.io event handler as a pure state
transformer.  `setTimeout`-based debouncing is modelled by storing the
timer's absolute fire time together with the value captured by the
timer callback's closure; a discrete-event driver (`runTimed`) fires
every due timer before delivering the next external event, and
`runAll` drains the remaining timers at the end of a trace.  Durable
writes are recorded in a log (`dbWrites`) with the wall-clock time at
which they were issued, and applied to the modelled database `db`;
outbound socket emissions are recorded in `emits`.
-/

set_option autoImplicit false

namespace RealtimeEditor

abbrev SocketId := String
abbrev RoomId := String
abbrev Username := String

/-- Monaco cursor position as forwarded by the client (`{ lineNumber, column }`). -/
structure Cursor where
  lineNumber : Nat
  column : Nat
deriving Repr, DecidableEq

/-- Durable room record (`RoomSchema` in `src/server/models/Room.js`):
`code` and `language`, keyed by `roomId`. -/
structure DbRecord where
  code : String
  language : String
deriving Repr, DecidableEq

/-- The three kinds of durable write the server issues:
`findOneAndUpdate({roomId},{code},{upsert:true})`,
`findOneAndUpdate({roomId},{language},{upsert:true})` and
`Room.create({roomId, code: default, language: default})`. -/
inductive DbWrite where
  | setCode (code : String)
  | setLanguage (language : String)
  | createDefault
deriving Repr, DecidableEq

/-- One entry of the `roomState` map: the in-memory pending changes
`{ code?, language? }` built up by object spread in the handlers. -/
structure PendingState where
  code : Option String
  language : Option String
deriving Repr, DecidableEq

/-- A pending `dbDebounce[roomId]` timer: absolute fire time plus the
`code` value captured by the `setTimeout` closure. -/
structure TextTimer where
  fireTime : Nat
  code : String
deriving Repr, DecidableEq

/-- A pending `saveLanguageDebounce[roomId]` timer. -/
structure LangTimer where
  fireTime : Nat
  language : String
deriving Repr, DecidableEq

/-- One element of the list built by `getAllConnectedClients`:
`{ socketId, username: userSocketMap[socketId] }` (the username lookup
can be `undefined`, hence `Option`). -/
structure ClientInfo where
  socketId : SocketId
  username : Option Username
deriving Repr, DecidableEq

/-- Payloads of server-to-client events (`ACTIONS.*`). -/
inductive EventPayload where
  | codeChange (code : String) (cursor : Option Cursor) (socketId : Option SocketId) (username : Option Username)
  | languageChange (language : String)
  | joined (clients : List ClientInfo) (username : Username) (socketId : SocketId)
  | cursorChange (socketId : SocketId) (cursor : Cursor) (username : Option Username)
  | disconnected (socketId : SocketId) (username : Option Username)
deriving Repr, DecidableEq

/-- One outbound emission: the list of sockets it is delivered to
(computed from room membership at emission time) and the payload. -/
structure Emit where
  targets : List SocketId
  payload : EventPayload
deriving Repr, DecidableEq

/-- Association-list lookup (string-keyed JS object access `m[k]`). -/
def aget {β : Type} (k : String) : List (String × β) → Option β
  | [] => none
  | p :: rest => if p.1 = k then some p.2 else aget k rest

/-- Association-list update (JS `m[k] = v`): at most one binding per key. -/
def aset {β : Type} (k : String) (v : β) (l : List (String × β)) : List (String × β) :=
  (k, v) :: l.filter (fun p => p.1 ≠ k)

/-- Association-list removal (JS `delete m[k]`). -/
def adel {β : Type} (k : String) (l : List (String × β)) : List (String × β) :=
  l.filter (fun p => p.1 ≠ k)

/-- The whole server state: the four module-level maps, the socket.io
adapter's room membership (in join order), the modelled database, and
logs of issued durable writes and outbound emissions. -/
structure ServerState where
  userSocketMap : List (SocketId × Username)
  rooms : List (RoomId × List SocketId)
  dbDebounce : List (RoomId × TextTimer)
  saveLanguageDebounce : List (RoomId × LangTimer)
  roomState : List (RoomId × PendingState)
  db : List (RoomId × DbRecord)
  dbWrites : List (Nat × RoomId × DbWrite)
  emits : List Emit
deriving Repr, DecidableEq

def initialState : ServerState :=
  { userSocketMap := [], rooms := [], dbDebounce := [], saveLanguageDebounce := [],
    roomState := [], db := [], dbWrites := [], emits := [] }

/-- Members of a room, in join order (`io.sockets.adapter.rooms.get(roomId)`). -/
def membersOf (s : ServerState) (r : RoomId) : List SocketId :=
  (aget r s.rooms).getD []

/-- Targets of `socket.in(roomId).emit(...)`: every room member except the sender. -/
def membersExcept (s : ServerState) (r : RoomId) (sid : SocketId) : List SocketId :=
  (membersOf s r).filter (fun x => x ≠ sid)

/-- The rooms a socket currently belongs to (used by `socket.rooms` minus
the socket's personal room, which we track separately). -/
def roomsOf (s : ServerState) (sid : SocketId) : List RoomId :=
  (s.rooms.filter (fun p => sid ∈ p.2)).map (fun p => p.1)

/-- `getAllConnectedClients(roomId)` from `src/server/index.js` lines 41-51. -/
def getAllConnectedClients (s : ServerState) (r : RoomId) : List ClientInfo :=
  (membersOf s r).map (fun x => { socketId := x, username := aget x s.userSocketMap })

def defaultCode : String := "// Write your code here"

def defaultLanguage : String := "javascript"

/-- Effect of a durable write on the modelled database.  Mongoose
`findOneAndUpdate(..., {upsert:true})` updates the named field of an
existing record, or inserts a fresh record with the schema defaults
for the fields not mentioned. -/
def applyDbWrite (r : RoomId) (w : DbWrite) (db : List (RoomId × DbRecord)) :
    List (RoomId × DbRecord) :=
  match w, aget r db with
  | .setCode c, some rec => aset r { rec with code := c } db
  | .setCode c, none => aset r { code := c, language := defaultLanguage } db
  | .setLanguage l, some rec => aset r { rec with language := l } db
  | .setLanguage l, none => aset r { code := defaultCode, language := l } db
  | .createDefault, _ => aset r { code := defaultCode, language := defaultLanguage } db

/-- Issue a durable write now: apply it to the database and log it. -/
def doWrite (t : Nat) (r : RoomId) (w : DbWrite) (s : ServerState) : ServerState :=
  { s with db := applyDbWrite r w s.db, dbWrites := s.dbWrites ++ [(t, r, w)] }

/-- Pending text for a room: `roomState[roomId]?.code`. -/
def pendingCode (s : ServerState) (r : RoomId) : Option String :=
  (aget r s.roomState).bind (fun p => p.code)

/-- Pending language for a room: `roomState[roomId]?.language`. -/
def pendingLanguage (s : ServerState) (r : RoomId) : Option String :=
  (aget r s.roomState).bind (fun p => p.language)

/-- Handler of `ACTIONS.CODE_CHANGE` (`src/server/index.js` lines 87-113):
fan the new text out to every room member except the sender, record the
pending value (`roomState[roomId] = {...roomState[roomId], code}`), and
(re)start the 1000 ms debounce timer whose callback captures `code`. -/
def handleCodeChange (t : Nat) (sid : SocketId) (r : RoomId) (code : String)
    (cursor : Option Cursor) (s : ServerState) : ServerState :=
  let s1 := { s with emits := s.emits ++
      [Emit.mk (membersExcept s r sid)
         (.codeChange code cursor (some sid) (aget sid s.userSocketMap))] }
  let prev := (aget r s1.roomState).getD { code := none, language := none }
  { s1 with roomState := aset r { prev with code := some code } s1.roomState,
            dbDebounce := aset r { fireTime := t + 1000, code := code } s1.dbDebounce }

/-- Handler of `ACTIONS.LANGUAGE_CHANGE` (`src/server/index.js` lines
115-131): `io.to(roomId).emit(...)` — i.e. delivered to the WHOLE room,
the sender included — then record the pending language and (re)start
the 500 ms debounce timer capturing `language`. -/
def handleLanguageChange (t : Nat) (sid : SocketId) (r : RoomId) (language : String)
    (s : ServerState) : ServerState :=
  let s1 := { s with emits := s.emits ++
      [Emit.mk (membersOf s r) (.languageChange language)] }
  let prev := (aget r s1.roomState).getD { code := none, language := none }
  { s1 with roomState := aset r { prev with language := some language } s1.roomState,
            saveLanguageDebounce :=
              aset r { fireTime := t + 500, language := language } s1.saveLanguageDebounce }

/-- Handler of `ACTIONS.CURSOR_CHANGE` (`src/server/index.js` lines
138-144): fan-out only, to every member except the sender, tagged with
the sender's socket id and username. -/
def handleCursorChange (t : Nat) (sid : SocketId) (r : RoomId) (cursor : Cursor)
    (s : ServerState) : ServerState :=
  let _ := t
  { s with emits := s.emits ++
      [Emit.mk (membersExcept s r sid)
         (.cursorChange sid cursor (aget sid s.userSocketMap))] }

/-- Handler of `ACTIONS.SYNC_CODE` (`src/server/index.js` lines 133-136):
relay code (and, if truthy, language) to one target socket. -/
def handleSyncCode (t : Nat) (target : SocketId) (code : String)
    (language : Option String) (s : ServerState) : ServerState :=
  let _ := t
  let langEmits : List Emit :=
    match language with
    | some l => if l ≠ "" then [Emit.mk [target] (.languageChange l)] else []
    | none => []
  { s with emits := s.emits ++
      [Emit.mk [target] (.codeChange code none none none)] ++ langEmits }

/-- The member list after `socket.join(roomId)`: socket.io room sets keep
insertion order and joining a room twice is a no-op. -/
def joinMembers (s : ServerState) (sid : SocketId) (r : RoomId) : List SocketId :=
  let cur := membersOf s r
  if sid ∈ cur then cur else cur ++ [sid]

/-- The `clients` list computed inside the join handler right after
`socket.join`. -/
def joinClients (s : ServerState) (sid : SocketId) (r : RoomId) (username : Username) :
    List ClientInfo :=
  (joinMembers s sid r).map
    (fun x => { socketId := x, username := aget x (aset sid username s.userSocketMap) })

/-- Handler of `ACTIONS.JOIN` (`src/server/index.js` lines 56-85):
record the username, join the room, and if this socket is the only
member either replay the persisted record to the room (`io.to(roomId)`,
whose target set at this point is the post-join member list
`joinMembers s sid r`) or durably create a default record; finally emit
`JOINED` (with the full client list and the joiner's identity) to every
client in the room, joiner included.  `clients` is the value of the
handler's `getAllConnectedClients(roomId)` call made right after
`socket.join(roomId)`; the lemma `joinClients_eq_getAllConnectedClients`
checks that `joinClients` is exactly that list. -/
def handleJoin (t : Nat) (sid : SocketId) (r : RoomId) (username : Username)
    (s : ServerState) : ServerState :=
  let s1 := { s with userSocketMap := aset sid username s.userSocketMap }
  let s2 := { s1 with rooms := aset r (joinMembers s sid r) s1.rooms }
  let clients := joinClients s sid r username
  let s3 :=
    if clients.length = 1 then
      match aget r s2.db with
      | some rec =>
        { s2 with emits := s2.emits ++
            [Emit.mk (joinMembers s sid r) (.codeChange rec.code none none none),
             Emit.mk (joinMembers s sid r) (.languageChange rec.language)] }
      | none => doWrite t r .createDefault s2
    else s2
  { s3 with emits := s3.emits ++
      clients.map (fun c => Emit.mk [c.socketId] (.joined clients username sid)) }

/-- The body of the `rooms.forEach` loop in the `disconnecting` handler
(`src/server/index.js` lines 148-170): announce the departure, then for
each kind, if a debounce timer is pending, cancel it, delete the marker,
and — only if the pending value is truthy (nonempty) — synchronously
issue the durable write. -/
def disconnectRoomStep (t : Nat) (sid : SocketId) (s : ServerState) (r : RoomId) :
    ServerState :=
  let s1 := { s with emits := s.emits ++
      [Emit.mk (membersExcept s r sid)
         (.disconnected sid (aget sid s.userSocketMap))] }
  let s2 :=
    match aget r s1.dbDebounce with
    | some _ =>
      let s' := { s1 with dbDebounce := adel r s1.dbDebounce }
      match pendingCode s' r with
      | some c => if c ≠ "" then doWrite t r (.setCode c) s' else s'
      | none => s'
    | none => s1
  match aget r s2.saveLanguageDebounce with
  | some _ =>
    let s' := { s2 with saveLanguageDebounce := adel r s2.saveLanguageDebounce }
    match pendingLanguage s' r with
    | some l => if l ≠ "" then doWrite t r (.setLanguage l) s' else s'
    | none => s'
  | none => s2

/-- Handler of the `disconnecting` event (`src/server/index.js` lines
146-173): iterate over `socket.rooms` (the personal room plus every
joined room), then remove the username entry; the socket's membership
itself is removed when the disconnect completes. -/
def handleDisconnecting (t : Nat) (sid : SocketId) (s : ServerState) : ServerState :=
  let roomList := sid :: roomsOf s sid
  let s1 := roomList.foldl (fun acc r => disconnectRoomStep t sid acc r) s
  { s1 with userSocketMap := adel sid s1.userSocketMap,
            rooms := s1.rooms.map (fun p => (p.1, p.2.filter (fun x => x ≠ sid))) }

/-- The body of the `dbDebounce` timer callback (`src/server/index.js`
lines 100-112) at the moment the timer fires.  On success (`success =
true`) the awaited `findOneAndUpdate` completes and the callback then
deletes both the timer marker and the whole `roomState[roomId]` entry;
in the `catch` branch the failure is only logged and the state is left
untouched, retaining the marker and the pending value. -/
def fireTextTimer (success : Bool) (fireT : Nat) (r : RoomId) (tm : TextTimer)
    (s : ServerState) : ServerState :=
  if success then
    { s with db := applyDbWrite r (.setCode tm.code) s.db,
             dbWrites := s.dbWrites ++ [(fireT, r, .setCode tm.code)],
             dbDebounce := adel r s.dbDebounce,
             roomState := adel r s.roomState }
  else s

/-- The body of the `saveLanguageDebounce` timer callback
(`src/server/index.js` lines 123-130).  On success it deletes only the
timer marker (not `roomState`); on failure it is a no-op apart from
logging. -/
def fireLangTimer (success : Bool) (fireT : Nat) (r : RoomId) (tm : LangTimer)
    (s : ServerState) : ServerState :=
  if success then
    { s with db := applyDbWrite r (.setLanguage tm.language) s.db,
             dbWrites := s.dbWrites ++ [(fireT, r, .setLanguage tm.language)],
             saveLanguageDebounce := adel r s.saveLanguageDebounce }
  else s

inductive TimerKind where
  | text
  | lang
deriving Repr, DecidableEq

/-- A timer that is due to fire, flattened for scheduling. -/
structure DueTimer where
  kind : TimerKind
  roomId : RoomId
  fireTime : Nat
  value : String
deriving Repr, DecidableEq

/-- Whether a timer with absolute fire time `ft` is due at the clock
reading `tOpt` (`none` plays the role of the end of time, used to drain
all remaining timers). -/
def dueAt (tOpt : Option Nat) (ft : Nat) : Bool :=
  match tOpt with
  | none => true
  | some t => ft ≤ t

/-- All timers due at the given clock reading. -/
def dueCandidates (tOpt : Option Nat) (s : ServerState) : List DueTimer :=
  ((s.dbDebounce.filter (fun p => dueAt tOpt p.2.fireTime)).map
      (fun p => DueTimer.mk .text p.1 p.2.fireTime p.2.code)) ++
  ((s.saveLanguageDebounce.filter (fun p => dueAt tOpt p.2.fireTime)).map
      (fun p => DueTimer.mk .lang p.1 p.2.fireTime p.2.language))

/-- Earliest due timer (ties resolved in list order, text before
language), matching the event loop firing callbacks in deadline order. -/
def pickEarliest : List DueTimer → Option DueTimer
  | [] => none
  | d :: rest =>
    match pickEarliest rest with
    | none => some d
    | some b => if b.fireTime < d.fireTime then some b else some d

/-- Fire one due timer (writes always succeed in the driver; write
failure is analysed separately through `fireTextTimer false`). -/
def fireTimer (d : DueTimer) (s : ServerState) : ServerState :=
  match d.kind with
  | .text => fireTextTimer true d.fireTime d.roomId ⟨d.fireTime, d.value⟩ s
  | .lang => fireLangTimer true d.fireTime d.roomId ⟨d.fireTime, d.value⟩ s

/-- Fire due timers repeatedly, earliest first; each firing removes its
own marker, so the initial timer count bounds the number of firings. -/
def fireDueAux : Nat → Option Nat → ServerState → ServerState
  | 0, _, s => s
  | Nat.succ fuel, tOpt, s =>
    match pickEarliest (dueCandidates tOpt s) with
    | none => s
    | some d => fireDueAux fuel tOpt (fireTimer d s)

def timerCount (s : ServerState) : Nat :=
  s.dbDebounce.length + s.saveLanguageDebounce.length

/-- Advance the clock to `t`: fire every timer due at or before `t`. -/
def fireDue (t : Nat) (s : ServerState) : ServerState :=
  fireDueAux (timerCount s) (some t) s

/-- Drain all remaining timers (end of a trace). -/
def fireAllTimers (s : ServerState) : ServerState :=
  fireDueAux (timerCount s) none s

/-- External client-to-server events, as the server receives them. -/
inductive InEvent where
  | join (sid : SocketId) (roomId : RoomId) (username : Username)
  | codeChange (sid : SocketId) (roomId : RoomId) (code : String) (cursor : Option Cursor)
  | languageChange (sid : SocketId) (roomId : RoomId) (language : String)
  | cursorChange (sid : SocketId) (roomId : RoomId) (cursor : Cursor)
  | syncCode (sid : SocketId) (target : SocketId) (code : String) (language : Option String)
  | disconnecting (sid : SocketId)
deriving Repr, DecidableEq

def stepEvent (t : Nat) (e : InEvent) (s : ServerState) : ServerState :=
  match e with
  | .join sid r u => handleJoin t sid r u s
  | .codeChange sid r c cur => handleCodeChange t sid r c cur s
  | .languageChange sid r l => handleLanguageChange t sid r l s
  | .cursorChange sid r c => handleCursorChange t sid r c s
  | .syncCode _ tgt c l => handleSyncCode t tgt c l s
  | .disconnecting sid => handleDisconnecting t sid s

/-- Run a chronologically ordered timed trace: before delivering each
event, fire every timer that came due in the meantime. -/
def runTimed : List (Nat × InEvent) → ServerState → ServerState
  | [], s => s
  | (t, e) :: rest, s => runTimed rest (stepEvent t e (fireDue t s))

/-- Run a trace from the empty process state and then let every
remaining debounce timer expire. -/
def runAll (trace : List (Nat × InEvent)) : ServerState :=
  fireAllTimers (runTimed trace initialState)

/-!
Execution gateway (`src/server/index.js` lines 179-226).  The route
builds an ordered list of three runner thunks and tries them in order:
a thrown error (network failure, timeout, or a runner that inspected a
malformed/error response and threw) moves on to the next runner, a
truthy resolved value is returned immediately as the JSON response,
and a falsy resolved value also falls through to the next runner.  If
the list is exhausted, a 500 response with a fixed user-facing message
is sent.  The runner internals hit remote services, so each runner is
abstracted to its observable outcome.
-/

/-- The `{ run: { output, stderr } }` shape the runners resolve with. -/
structure RunOutput where
  output : String
  stderr : String
deriving Repr, DecidableEq

structure RunResult where
  run : RunOutput
deriving Repr, DecidableEq

/-- Observable outcome of one runner thunk: it either throws (axios
error, timeout, or an explicit `throw` on an error response) or
resolves, possibly with a falsy value. -/
inductive RunnerOutcome where
  | throws (message : String)
  | returns (data : Option RunResult)
deriving Repr, DecidableEq

/-- The HTTP response of `/api/execute`. -/
inductive ExecResponse where
  | success (data : RunResult)
  | failure (status : Nat) (message : String)
deriving Repr, DecidableEq

def allEnginesDownMessage : String :=
  "All execution engines are currently down. Please try again in a moment."

/-- A runner outcome that does not produce a well-formed (truthy) result. -/
def runnerFails : RunnerOutcome → Bool
  | .returns (some _) => false
  | _ => true

/-- The fallback loop of `/api/execute` (`src/server/index.js` lines
215-225): `for (let runTask of runners) { try { const data = await
runTask(); if (data) return res.json(data); } catch { continue } }`
followed by the 500 response. -/
def runRunners : List RunnerOutcome → ExecResponse
  | [] => .failure 500 allEnginesDownMessage
  | .returns (some d) :: _ => .success d
  | .returns none :: rest => runRunners rest
  | .throws _ :: rest => runRunners rest

/-! ### Association-list lemmas -/

theorem aget_aset_self {β : Type} (k : String) (v : β) (l : List (String × β)) :
    aget k (aset k v l) = some v := by
  simp [aget, aset]

theorem aget_adel_ne {β : Type} {k k' : String} (h : k' ≠ k) (l : List (String × β)) :
    aget k' (adel k l) = aget k' l := by
  induction l with
  | nil => rfl
  | cons p rest ih =>
    by_cases hk : p.1 = k <;> by_cases hk' : p.1 = k' <;>
      simp_all [adel, aget, List.filter_cons]

theorem aget_aset_ne {β : Type} {k k' : String} (h : k' ≠ k) (v : β) (l : List (String × β)) :
    aget k' (aset k v l) = aget k' l := by
  have h1 : aget k' (aset k v l) = aget k' (adel k l) := by
    show aget k' ((k, v) :: adel k l) = aget k' (adel k l)
    have h2 : ¬ (k = k') := Ne.symm h
    simp [aget, h2]
  rw [h1, aget_adel_ne h]

/-- Sanity check of the `handleJoin` embedding: the `clients` list it
uses is exactly what `getAllConnectedClients(roomId)` returns on the
state right after `socket.join(roomId)` has updated the adapter and
`userSocketMap[socket.id]` has been recorded. -/
theorem joinClients_eq_getAllConnectedClients (s : ServerState) (sid : SocketId)
    (r : RoomId) (username : Username) :
    joinClients s sid r username =
      getAllConnectedClients
        { s with userSocketMap := aset sid username s.userSocketMap,
                 rooms := aset r (joinMembers s sid r) s.rooms } r := by
  unfold joinClients getAllConnectedClients membersOf
  dsimp only
  rw [aget_aset_self]
  rfl

theorem mem_joinMembers (s : ServerState) (sid : SocketId) (r : RoomId) :
    sid ∈ joinMembers s sid r := by
  unfold joinMembers
  dsimp only
  split
  · assumption
  · exact List.mem_append_right _ (List.mem_singleton.mpr rfl)

theorem handleJoin_rooms (t : Nat) (sid : SocketId) (r : RoomId) (username : Username)
    (s : ServerState) :
    (handleJoin t sid r username s).rooms = aset r (joinMembers s sid r) s.rooms := by
  unfold handleJoin doWrite
  dsimp only
  split
  · split <;> rfl
  · rfl

theorem handleJoin_userSocketMap (t : Nat) (sid : SocketId) (r : RoomId) (username : Username)
    (s : ServerState) :
    (handleJoin t sid r username s).userSocketMap = aset sid username s.userSocketMap := by
  unfold handleJoin doWrite
  dsimp only
  split
  · split <;> rfl
  · rfl

/-! ### Concrete scenarios used by the claims -/

/-- C1's failing input: a single participant joins room `r`, sends one
text-change whose text is the empty string, and disconnects 10 ms later,
long before the 1000 ms debounce delay elapses. -/
def c1trace : List (Nat × InEvent) :=
  [(0, .join "s1" "r" "alice"),
   (10, .codeChange "s1" "r" "" none),
   (20, .disconnecting "s1")]

/-- A room with two members, `s1` having joined first. -/
def c3state : ServerState :=
  handleJoin 1 "s2" "r" "bob" (handleJoin 0 "s1" "r" "alice" initialState)

/-- C4's counterexample trace: a text edit at 10 ms (timer due 1010 ms),
a language change at 620 ms (timer due 1120 ms), and a disconnect at
1100 ms — after the text timer fired but before the language timer. -/
def c4trace : List (Nat × InEvent) :=
  [(0, .join "s1" "r" "alice"),
   (10, .codeChange "s1" "r" "A" none),
   (620, .languageChange "s1" "r" "python"),
   (1100, .disconnecting "s1")]

/-- The state just before C4's disconnect is processed: a text edit and
a language change are both pending. -/
def c4mid : ServerState := runTimed (c4trace.take 3) initialState

/-- A state with a pending text value and a pending language value and
both debounce timers armed (used to witness the retained-on-failure
and retried-by-flush behaviour). -/
def c4wstate : ServerState :=
  runTimed [(0, .codeChange "s1" "r" "A" none), (100, .languageChange "s1" "r" "python")]
    initialState

/-- A process state whose database already holds a record for room `r`. -/
def c6state : ServerState := { initialState with db := [("r", ⟨"X", "python"⟩)] }

/-- The state after a join with an empty `roomId`. -/
def c7joined : ServerState := handleJoin 0 "s1" "" "alice" initialState

/-! ### Claims -/

/-- C1: the claim asserts that when the only participant sends one
text-change with ANY text value — including the empty string — and then
disconnects before the debounce delay elapses, the disconnect handler
issues a durable write so the persisted record reflects that edit.  The
code cancels the timer but guards the flush write with the JS
truthiness test `roomState[roomId]?.code`, which an empty string fails:
on the concrete failing trace the only durable write ever issued is the
default-record creation at join time, and the persisted record still
holds the default text, not the edit's empty text.  This contradicts
the handler's own stated intent ("we should just save if we have
pending changes") and the spec's flush-on-disconnect no-data-loss
guarantee, so the code, not the claim, is wrong. -/
theorem empty_text_edit_lost_on_disconnect :
    aget "r" (runAll c1trace).db = some { code := defaultCode, language := defaultLanguage } ∧
    (runAll c1trace).dbWrites = [(0, "r", DbWrite.createDefault)] := by
  decide

/-- C3, counterexample: in a two-member room, a language change sent by
`s1` is emitted with `io.to(roomId)`, whose target list `["s1", "s2"]`
contains the originator `s1` — the fan-out does NOT exclude the
originator as the claim states. -/
theorem language_change_reaches_originator :
    Emit.mk ["s1", "s2"] (.languageChange "python")
        ∈ (handleLanguageChange 2 "s1" "r" "python" c3state).emits ∧
    "s1" ∈ (Emit.mk ["s1", "s2"] (EventPayload.languageChange "python")).targets := by
  decide

/-- C3, amended: every language-change applied to a room is delivered
to the full member list of the room — every member INCLUDING the
originating connection when it is a member (`io.to(roomId)`), unlike
text changes, which use `socket.in(roomId)` and exclude the
originator. -/
theorem language_change_fanout_full_room (s : ServerState) (t : Nat) (sid : SocketId)
    (r : RoomId) (language : String) :
    (handleLanguageChange t sid r language s).emits =
      s.emits ++ [Emit.mk (membersOf s r) (.languageChange language)] := rfl

/-- C7, counterexample: a join with an empty `roomId` does not fail and
is not dropped — the server performs no validation, so the connection
is registered as a member of the room named by the empty string and its
username is recorded. -/
theorem join_empty_roomid_registers :
    "s1" ∈ membersOf c7joined "" ∧ aget "s1" c7joined.userSocketMap = some "alice" := by
  decide

/-- C7, amended: join never fails — for every `roomId`, including the
empty string, the join handler registers the connection's membership
and records its username; no malformed-payload validation exists. -/
theorem join_always_registers (s : ServerState) (t : Nat) (sid : SocketId) (r : RoomId)
    (username : Username) :
    sid ∈ membersOf (handleJoin t sid r username s) r ∧
    aget sid (handleJoin t sid r username s).userSocketMap = some username := by
  constructor
  · rw [membersOf, handleJoin_rooms, aget_aset_self]
    exact mem_joinMembers s sid r
  · rw [handleJoin_userSocketMap, aget_aset_self]

/-- C8: text changes and language changes use separate debounce
buckets — scheduling a text write leaves the language timer map and
every room's pending language value untouched, and scheduling a
language write leaves the text timer map and every room's pending text
value untouched. -/
theorem text_language_debounce_buckets_independent (s : ServerState) (t : Nat)
    (sid : SocketId) (r : RoomId) (code language : String) (cursor : Option Cursor) :
    (handleCodeChange t sid r code cursor s).saveLanguageDebounce = s.saveLanguageDebounce ∧
    (∀ r', pendingLanguage (handleCodeChange t sid r code cursor s) r' = pendingLanguage s r') ∧
    (handleLanguageChange t sid r language s).dbDebounce = s.dbDebounce ∧
    (∀ r', pendingCode (handleLanguageChange t sid r language s) r' = pendingCode s r') := by
  refine ⟨rfl, ?_, rfl, ?_⟩
  · intro r'
    by_cases h : r' = r
    · subst h
      show ((aget r' (aset r' _ s.roomState)).bind _) = _
      rw [aget_aset_self]
      cases h2 : aget r' s.roomState <;> simp [pendingLanguage, h2, Option.bind]
    · show ((aget r' (aset r _ s.roomState)).bind _) = _
      rw [aget_aset_ne h]
      rfl
  · intro r'
    by_cases h : r' = r
    · subst h
      show ((aget r' (aset r' _ s.roomState)).bind _) = _
      rw [aget_aset_self]
      cases h2 : aget r' s.roomState <;> simp [pendingCode, h2, Option.bind]
    · show ((aget r' (aset r _ s.roomState)).bind _) = _
      rw [aget_aset_ne h]
      rfl

/-- C9: a cursor-change only fans the position out to every room member
except the originator, tagged with the originator's socket id and
username; the database, the write log, both debounce timer maps and the
pending-value map are all left exactly as they were. -/
theorem cursor_change_pure_fanout (s : ServerState) (t : Nat) (sid : SocketId)
    (r : RoomId) (cursor : Cursor) :
    (handleCursorChange t sid r cursor s).db = s.db ∧
    (handleCursorChange t sid r cursor s).dbWrites = s.dbWrites ∧
    (handleCursorChange t sid r cursor s).dbDebounce = s.dbDebounce ∧
    (handleCursorChange t sid r cursor s).saveLanguageDebounce = s.saveLanguageDebounce ∧
    (handleCursorChange t sid r cursor s).roomState = s.roomState ∧
    (handleCursorChange t sid r cursor s).emits = s.emits ++
      [Emit.mk (membersExcept s r sid)
        (.cursorChange sid cursor (aget sid s.userSocketMap))] ∧
    sid ∉ membersExcept s r sid := by
  refine ⟨rfl, rfl, rfl, rfl, rfl, rfl, ?_⟩
  simp [membersExcept]

/-! ### Debounce coalescing (C2) -/

/-- A burst of text-change events for one room, given as
`(arrival time, sender, text)` triples. -/
def codeBurst (r : RoomId) : List (Nat × SocketId × String) → List (Nat × InEvent) :=
  List.map (fun p => (p.1, InEvent.codeChange p.2.1 r p.2.2 none))

/-- Each event arrives strictly after the previous one and strictly
within 1000 ms of it, starting from a previous arrival at `tp`. -/
def gapsOk : Nat → List (Nat × SocketId × String) → Bool
  | _, [] => true
  | tp, p :: rest => (tp < p.1 && p.1 < tp + 1000) && gapsOk p.1 rest

/-- The whole burst is chronological with every gap under 1000 ms. -/
def chronOk : List (Nat × SocketId × String) → Bool
  | [] => true
  | p :: rest => gapsOk p.1 rest

/-- Arrival time of the last event of a burst (`d` if the burst is empty). -/
def lastT (d : Nat) : List (Nat × SocketId × String) → Nat
  | [] => d
  | p :: rest => lastT p.1 rest

/-- Text of the last event of a burst (`d` if the burst is empty). -/
def lastC (d : String) : List (Nat × SocketId × String) → String
  | [] => d
  | p :: rest => lastC p.2.2 rest

/-- The server state in the middle of a burst against room `r` started
from the empty process state: after an edit with text `c` accepted at
time `t`, the room's debounce timer is armed for `t + 1000` capturing
`c`, the pending text is `c`, and no durable write has been issued. -/
def burstState (r : RoomId) (t : Nat) (c : String) (E : List Emit) : ServerState :=
  { userSocketMap := [], rooms := [], dbDebounce := [(r, ⟨t + 1000, c⟩)],
    saveLanguageDebounce := [], roomState := [(r, ⟨some c, none⟩)],
    db := [], dbWrites := [], emits := E }

theorem fireDueAux_of_no_due (n : Nat) (tOpt : Option Nat) (s : ServerState)
    (h : dueCandidates tOpt s = []) : fireDueAux n tOpt s = s := by
  cases n with
  | zero => rfl
  | succ m =>
    unfold fireDueAux
    rw [h]
    rfl

theorem fireDue_burstState (r : RoomId) (t : Nat) (c : String) (E : List Emit)
    (tq : Nat) (h : tq < t + 1000) :
    fireDue tq (burstState r t c E) = burstState r t c E := by
  apply fireDueAux_of_no_due
  have hn : ¬ (t + 1000 ≤ tq) := Nat.not_le.mpr h
  simp [dueCandidates, dueAt, burstState, hn]

theorem stepEvent_code_burstState (r : RoomId) (tp : Nat) (cp : String) (E : List Emit)
    (t : Nat) (sid : SocketId) (c : String) :
    stepEvent t (.codeChange sid r c none) (burstState r tp cp E) =
      burstState r t c (E ++ [Emit.mk [] (.codeChange c none (some sid) none)]) := by
  simp [stepEvent, handleCodeChange, burstState, membersExcept, membersOf, aget, aset]

theorem stepEvent_code_initialState (t : Nat) (sid : SocketId) (r : RoomId) (c : String) :
    stepEvent t (.codeChange sid r c none) initialState =
      burstState r t c [Emit.mk [] (.codeChange c none (some sid) none)] := by
  simp [stepEvent, handleCodeChange, initialState, burstState, membersExcept, membersOf,
    aget, aset]

theorem runTimed_codeBurst (r : RoomId) :
    ∀ (l : List (Nat × SocketId × String)) (tp : Nat) (cp : String) (E : List Emit),
      gapsOk tp l = true →
      ∃ E', runTimed (codeBurst r l) (burstState r tp cp E) =
        burstState r (lastT tp l) (lastC cp l) E' := by
  intro l
  induction l with
  | nil => exact fun tp cp E _ => ⟨E, rfl⟩
  | cons p rest ih =>
    intro tp cp E h
    simp only [gapsOk, Bool.and_eq_true, decide_eq_true_eq] at h
    obtain ⟨⟨h1, h2⟩, h3⟩ := h
    show ∃ E', runTimed (codeBurst r rest)
        (stepEvent p.1 (.codeChange p.2.1 r p.2.2 none) (fireDue p.1 (burstState r tp cp E))) =
      burstState r (lastT p.1 rest) (lastC p.2.2 rest) E'
    rw [fireDue_burstState r tp cp E p.1 h2, stepEvent_code_burstState]
    exact ih p.1 p.2.2 _ h3

theorem fireAllTimers_burstState (r : RoomId) (t : Nat) (c : String) (E : List Emit) :
    (fireAllTimers (burstState r t c E)).dbWrites = [(t + 1000, r, DbWrite.setCode c)] := by
  show (fireDueAux (Nat.succ 0) none (burstState r t c E)).dbWrites = _
  unfold fireDueAux
  simp [dueCandidates, dueAt, pickEarliest, fireTimer, fireTextTimer, burstState]
  rfl

/-- C2: for every nonempty sequence of text-change events against one
room, starting from the empty process state, with each event arriving
strictly within 1000 ms of the previous one, exactly one durable write
is ever issued: it is issued 1000 ms after the last event (so no write
at all happens until the debounce delay has elapsed after the last
event) and it contains exactly the last event's text — every
intermediate schedule replaced the pending value and restarted the
timer from its own arrival time. -/
theorem debounced_text_writes_coalesce_to_last (r : RoomId)
    (l : List (Nat × SocketId × String)) (hne : l ≠ []) (hch : chronOk l = true) :
    (runAll (codeBurst r l)).dbWrites =
      [(lastT 0 l + 1000, r, DbWrite.setCode (lastC "" l))] := by
  cases l with
  | nil => exact absurd rfl hne
  | cons p rest =>
    have hgaps : gapsOk p.1 rest = true := hch
    show (fireAllTimers (runTimed (codeBurst r rest)
        (stepEvent p.1 (.codeChange p.2.1 r p.2.2 none)
          (fireDue p.1 initialState)))).dbWrites = _
    have h0 : fireDue p.1 initialState = initialState := rfl
    rw [h0, stepEvent_code_initialState]
    obtain ⟨E', hE⟩ := runTimed_codeBurst r rest p.1 p.2.2 _ hgaps
    rw [hE, fireAllTimers_burstState]
    rfl

/-- C2, witness: the spec's own scenario — five edits arriving 100 ms
apart produce exactly one durable write, at 1400 ms (1000 ms after the
fifth edit), containing the fifth edit's text. -/
theorem debounced_text_writes_coalesce_to_last_witness :
    (([(0, "s1", "c1"), (100, "s1", "c2"), (200, "s2", "c3"),
       (300, "s1", "c4"), (400, "s1", "c5")] : List (Nat × SocketId × String)) ≠ [] ∧
     chronOk [(0, "s1", "c1"), (100, "s1", "c2"), (200, "s2", "c3"),
       (300, "s1", "c4"), (400, "s1", "c5")] = true) ∧
    (runAll (codeBurst "r" [(0, "s1", "c1"), (100, "s1", "c2"), (200, "s2", "c3"),
       (300, "s1", "c4"), (400, "s1", "c5")])).dbWrites =
      [(1400, "r", DbWrite.setCode "c5")] :=
  ⟨⟨by decide, by decide⟩,
   debounced_text_writes_coalesce_to_last "r"
     [(0, "s1", "c1"), (100, "s1", "c2"), (200, "s2", "c3"),
      (300, "s1", "c4"), (400, "s1", "c5")] (by decide) (by decide)⟩

/-- C4, counterexample: a pending value CAN be dropped without ever
being written durably.  On `c4trace`, the language value "python" is
pending for room `r` with its timer armed (first two conjuncts), yet
the complete run issues no `setLanguage` write at all — the write log
holds only the default-record creation and the text write — and the
persisted record's language is still the default: the successful text
write deleted the room's entire `roomState` entry, and the disconnect
flush therefore found no pending language to retry. -/
theorem pending_language_dropped_without_write :
    pendingLanguage c4mid "r" = some "python" ∧
    aget "r" c4mid.saveLanguageDebounce = some ⟨1120, "python"⟩ ∧
    (runAll c4trace).dbWrites =
      [(0, "r", DbWrite.createDefault), (1010, "r", DbWrite.setCode "A")] ∧
    aget "r" (runAll c4trace).db = some { code := "A", language := defaultLanguage } := by
  decide

/-- C4, amended: when a debounced durable write fails, the timer marker
and the pending value for that `(roomId, kind)` pair are retained (the
`catch` branch changes nothing), and the flush path then retries and
issues the write for each kind whose pending value is nonempty; but
pending values are not universally preserved — a successful text write
deletes the room's whole pending state, so a pending language value can
be dropped without ever being written durably, and the flush path skips
an empty-string pending value. -/
theorem failed_write_retained_and_flush_retries (s : ServerState) (t tf : Nat)
    (r : RoomId) (sid : SocketId) (tmT : TextTimer) (tmL : LangTimer) (c l : String)
    (hT : aget r s.dbDebounce = some tmT) (hc : pendingCode s r = some c) (hc0 : c ≠ "")
    (hL : aget r s.saveLanguageDebounce = some tmL) (hl : pendingLanguage s r = some l)
    (hl0 : l ≠ "") :
    fireTextTimer false t r tmT s = s ∧
    fireLangTimer false t r tmL s = s ∧
    (tf, r, DbWrite.setCode c) ∈ (disconnectRoomStep tf sid s r).dbWrites ∧
    (tf, r, DbWrite.setLanguage l) ∈ (disconnectRoomStep tf sid s r).dbWrites := by
  have key : (disconnectRoomStep tf sid s r).dbWrites =
      s.dbWrites ++ [(tf, r, DbWrite.setCode c)] ++ [(tf, r, DbWrite.setLanguage l)] := by
    unfold disconnectRoomStep doWrite
    dsimp only
    simp only [pendingCode, pendingLanguage] at hc hl
    rw [hT]
    dsimp only [pendingCode]
    rw [hc]
    dsimp only
    rw [if_pos hc0]
    dsimp only
    rw [hL]
    dsimp only [pendingLanguage]
    rw [hl]
    dsimp only
    rw [if_pos hl0]
  refine ⟨rfl, rfl, ?_, ?_⟩ <;> simp [key]

/-- C4, witness: on a concrete state with both a text value and a
language value pending and both timers armed, the amended claim's
hypotheses hold and its conclusion evaluates. -/
theorem failed_write_retained_and_flush_retries_witness :
    (aget "r" c4wstate.dbDebounce = some ⟨1000, "A"⟩ ∧
     pendingCode c4wstate "r" = some "A" ∧
     aget "r" c4wstate.saveLanguageDebounce = some ⟨600, "python"⟩ ∧
     pendingLanguage c4wstate "r" = some "python") ∧
    (fireTextTimer false 999 "r" ⟨1000, "A"⟩ c4wstate = c4wstate ∧
     fireLangTimer false 999 "r" ⟨600, "python"⟩ c4wstate = c4wstate ∧
     (1500, "r", DbWrite.setCode "A") ∈ (disconnectRoomStep 1500 "s1" c4wstate "r").dbWrites ∧
     (1500, "r", DbWrite.setLanguage "python")
        ∈ (disconnectRoomStep 1500 "s1" c4wstate "r").dbWrites) :=
  ⟨⟨by decide, by decide, by decide, by decide⟩,
   failed_write_retained_and_flush_retries c4wstate 999 1500 "r" "s1" ⟨1000, "A"⟩
     ⟨600, "python"⟩ "A" "python" (by decide) (by decide) (by decide) (by decide)
     (by decide) (by decide)⟩

/-- C6: when the first member joins a room (the member list was empty),
then — if no persisted record exists — a default record with the fixed
default text and default language is created durably (present in the
database and in the write log), and — if a persisted record exists —
its text and its language are each emitted to exactly the joining
connection. -/
theorem first_join_creates_default_or_replays_record (s : ServerState) (t : Nat)
    (sid : SocketId) (r : RoomId) (username : Username)
    (hempty : membersOf s r = []) :
    (aget r s.db = none →
      aget r (handleJoin t sid r username s).db =
        some { code := defaultCode, language := defaultLanguage } ∧
      (t, r, DbWrite.createDefault) ∈ (handleJoin t sid r username s).dbWrites) ∧
    (∀ rec, aget r s.db = some rec →
      Emit.mk [sid] (.codeChange rec.code none none none)
          ∈ (handleJoin t sid r username s).emits ∧
      Emit.mk [sid] (.languageChange rec.language)
          ∈ (handleJoin t sid r username s).emits) := by
  have hjm : joinMembers s sid r = [sid] := by
    unfold joinMembers
    rw [hempty]
    simp
  have hjc : joinClients s sid r username = [⟨sid, some username⟩] := by
    unfold joinClients
    rw [hjm]
    simp [aget_aset_self]
  constructor
  · intro hdb
    unfold handleJoin doWrite
    dsimp only
    rw [hjc]
    simp only [List.length_singleton]
    rw [if_pos trivial, hdb]
    dsimp only
    constructor
    · have happ : applyDbWrite r DbWrite.createDefault s.db =
          aset r { code := defaultCode, language := defaultLanguage } s.db := rfl
      rw [happ, aget_aset_self]
    · simp
  · intro rec hdb
    unfold handleJoin
    dsimp only
    rw [hjc, hjm]
    simp only [List.length_singleton]
    rw [if_pos trivial, hdb]
    dsimp only
    constructor <;> simp

/-- C6, witness: instantiating the theorem at the empty process state
(no record: a durable default is created) and at a state whose database
holds `{code := "X", language := "python"}` for room `r` (the record is
replayed to the joiner). -/
theorem first_join_creates_default_or_replays_record_witness :
    (membersOf initialState "r" = [] ∧ aget "r" initialState.db = none ∧
      aget "r" (handleJoin 0 "s1" "r" "alice" initialState).db =
        some { code := defaultCode, language := defaultLanguage } ∧
      (0, "r", DbWrite.createDefault) ∈ (handleJoin 0 "s1" "r" "alice" initialState).dbWrites) ∧
    (membersOf c6state "r" = [] ∧ aget "r" c6state.db = some ⟨"X", "python"⟩ ∧
      Emit.mk ["s3"] (.codeChange "X" none none none)
          ∈ (handleJoin 0 "s3" "r" "carol" c6state).emits ∧
      Emit.mk ["s3"] (.languageChange "python")
          ∈ (handleJoin 0 "s3" "r" "carol" c6state).emits) :=
  ⟨⟨by decide, by decide,
    (first_join_creates_default_or_replays_record initialState 0 "s1" "r" "alice"
        (by decide)).1 (by decide)⟩,
   ⟨by decide, by decide,
    (first_join_creates_default_or_replays_record c6state 0 "s3" "r" "carol"
        (by decide)).2 ⟨"X", "python"⟩ (by decide)⟩⟩

/-- C10: on every join, the `joined` announcement — carrying the full
post-join client list and the new member's identity — is emitted
individually to every client in that list, and the joining connection
itself is one of them, so the joiner always receives its own `joined`
event with the complete member list. -/
theorem joined_broadcast_includes_joiner (s : ServerState) (t : Nat) (sid : SocketId)
    (r : RoomId) (username : Username) :
    (∃ pre : List Emit,
      (handleJoin t sid r username s).emits =
        s.emits ++ pre ++ (joinClients s sid r username).map
          (fun c => Emit.mk [c.socketId] (.joined (joinClients s sid r username) username sid))) ∧
    sid ∈ (joinClients s sid r username).map (fun c => c.socketId) := by
  constructor
  · unfold handleJoin doWrite
    dsimp only
    split
    · split
      · rename_i rec heq
        exact ⟨[Emit.mk (joinMembers s sid r) (.codeChange rec.code none none none),
                Emit.mk (joinMembers s sid r) (.languageChange rec.language)], by simp⟩
      · exact ⟨[], by simp⟩
    · exact ⟨[], by simp⟩
  · unfold joinClients
    rw [List.map_map]
    exact List.mem_map.mpr ⟨sid, mem_joinMembers s sid r, rfl⟩

/-- C5: the execution gateway tries the configured runners in order:
whenever every runner before some runner fails (throws, or resolves
with a falsy value — a timeout or malformed response surfaces as one of
these) and that runner resolves with a well-formed result, the response
is exactly that result, with none of the earlier failures surfaced; and
when every runner fails, the response is a 500 failure carrying the
fixed, nonempty user-presentable message. -/
theorem execute_fallback_order_and_exhaustion :
    (∀ (pre rest : List RunnerOutcome) (d : RunResult),
      (∀ o ∈ pre, runnerFails o = true) →
      runRunners (pre ++ .returns (some d) :: rest) = .success d) ∧
    (∀ outs : List RunnerOutcome,
      (∀ o ∈ outs, runnerFails o = true) →
      runRunners outs = .failure 500 allEnginesDownMessage ∧ allEnginesDownMessage ≠ "") := by
  constructor
  · intro pre rest d hpre
    induction pre with
    | nil => rfl
    | cons o os ih =>
      have ho := hpre o (List.mem_cons_self o os)
      have hos : ∀ o' ∈ os, runnerFails o' = true :=
        fun o' h' => hpre o' (List.mem_cons_of_mem o h')
      cases o with
      | throws m => simpa [runRunners] using ih hos
      | returns data =>
        cases data with
        | none => simpa [runRunners] using ih hos
        | some v => simp [runnerFails] at ho
  · intro outs houts
    refine ⟨?_, by decide⟩
    induction outs with
    | nil => rfl
    | cons o os ih =>
      have ho := houts o (List.mem_cons_self o os)
      have hos : ∀ o' ∈ os, runnerFails o' = true :=
        fun o' h' => houts o' (List.mem_cons_of_mem o h')
      cases o with
      | throws m => simpa [runRunners] using ih hos
      | returns data =>
        cases data with
        | none => simpa [runRunners] using ih hos
        | some v => simp [runnerFails] at ho

/-- C5, witness: the spec's own scenario — two runners failing with
network errors and the third returning `{stdout: "ok"}` yields that
result; all three failing yields the 500 failure with its nonempty
message. -/
theorem execute_fallback_order_and_exhaustion_witness :
    ((∀ o ∈ [RunnerOutcome.throws "ECONNREFUSED", RunnerOutcome.throws "ETIMEDOUT"],
        runnerFails o = true) ∧
      runRunners [.throws "ECONNREFUSED", .throws "ETIMEDOUT",
          .returns (some ⟨⟨"ok", ""⟩⟩)] = .success ⟨⟨"ok", ""⟩⟩) ∧
    ((∀ o ∈ [RunnerOutcome.throws "e1", RunnerOutcome.throws "e2", RunnerOutcome.throws "e3"],
        runnerFails o = true) ∧
      runRunners [.throws "e1", .throws "e2", .throws "e3"] =
        .failure 500 allEnginesDownMessage ∧ allEnginesDownMessage ≠ "") :=
  ⟨⟨by decide,
    execute_fallback_order_and_exhaustion.1
      [.throws "ECONNREFUSED", .throws "ETIMEDOUT"] [] ⟨⟨"ok", ""⟩⟩ (by decide)⟩,
   ⟨by decide,
    execute_fallback_order_and_exhaustion.2
      [.throws "e1", .throws "e2", .throws "e3"] (by decide)⟩⟩

end RealtimeEditor
